import Mathlib

/-!
Verification of the viser client resource-lifecycle, interaction and
environment-state core against its specification.

The development shallowly embeds:
- `mesh/BoxMesh.tsx` (material memoisation, material cleanup effect, shared
  box geometry, shadow material memo, render output);
- `utils/normalizeScale.ts` (scale normalisation and `useEnvironmentState`);
- the hover-clearing interaction machine and the texture loading slot, whose
  implementation files (`SceneTree.tsx`, `ThreeAssets.tsx`) are not part of
  the sampled sources and are therefore modelled from the specification and
  the code excerpts quoted in `fix_report.md`.

Rendering resources (materials, geometries, textures) are represented by
numeric identities allocated from a counter; `dispose()` calls are recorded
in append-only logs so that conservation and leak statements can be made
about them.
-/

namespace Viser

/-- Material kind selector of the box message (`"standard" | "toon3" | "toon5"`). -/
inductive MaterialKind where
  | standard
  | toon3
  | toon5
deriving DecidableEq

/-- Face culling side of the box message (`"front" | "back" | "double"`). -/
inductive Side where
  | front
  | back
  | double
deriving DecidableEq

/-- An RGB colour triple of integers. -/
structure RGB where
  r : Nat
  g : Nat
  b : Nat
deriving DecidableEq

/-- A triple of rational coordinates (embedding of a `[number, number, number]`). -/
structure V3 where
  x : ℚ
  y : ℚ
  z : ℚ
deriving DecidableEq

/-- The `scale` property: `number | [number, number, number]`. -/
inductive ScaleProp where
  | uniform (s : ℚ)
  | triple (v : V3)
deriving DecidableEq

/-- The `receive_shadow` property: `boolean | number`. -/
inductive ShadowProp where
  | flag (b : Bool)
  | opacity (x : ℚ)
deriving DecidableEq

/-- Declared properties of a box node used by `BoxMesh`
(`message.props` in `mesh/BoxMesh.tsx`). -/
structure BoxProps where
  material : MaterialKind
  color : RGB
  wireframe : Bool
  opacity : Option ℚ
  flat_shading : Bool
  side : Side
  receive_shadow : ShadowProp
  cast_shadow : Bool
  scale : ScaleProp
  dimensions : V3
deriving DecidableEq

/-- Embedding of `normalizeScale` from `utils/normalizeScale.ts`: a numeric
scale becomes a uniform triple, a triple passes through. -/
def normalizeScale : ScaleProp → V3
  | ScaleProp.uniform s => ⟨s, s, s⟩
  | ScaleProp.triple v => v

/-- The dependency signature of the material memo in `BoxMesh.tsx`
(lines 23 to 30): exactly the six listed fields, in order. -/
abbrev MatSig := MaterialKind × RGB × Bool × Option ℚ × Bool × Side

/-- Signature extraction mirroring the dependency array
`[material, color, wireframe, opacity, flat_shading, side]`. -/
def matSigOf (p : BoxProps) : MatSig :=
  (p.material, p.color, p.wireframe, p.opacity, p.flat_shading, p.side)

/-- The derived shadow opacity of `BoxMesh.tsx` (lines 45 to 48):
`typeof receive_shadow === "number" ? receive_shadow : 0.0`. -/
def shadowOpacity (p : BoxProps) : ℚ :=
  match p.receive_shadow with
  | ShadowProp.opacity x => x
  | ShadowProp.flag _ => 0

/-- Process-wide rendering world: the resource identity counter, the shared
module-level `boxGeometry` slot of `BoxMesh.tsx` line 8, and dispose logs
for each resource kind. -/
structure World where
  nextId : Nat
  boxGeometry : Option Nat
  geoCreated : Nat
  geoDisposeLog : List Nat
  matDisposeLog : List Nat
  shadowDisposeLog : List Nat
deriving DecidableEq

/-- The initial world: no geometry yet, no resources, empty logs. -/
def initWorld : World := ⟨0, none, 0, [], [], []⟩

/-- Per-instance retained render state of one mounted `BoxMesh`: the cached
memo dependency values and memoised objects, plus the lists of material
identities this instance ever created (for attribution of liveness). -/
structure BoxInst where
  matSig : MatSig
  matId : Nat
  createdMats : List Nat
  shadowOp : ℚ
  shadowMat : Option (Nat × ℚ)
  createdShadowMats : List Nat
deriving DecidableEq

/-- Lazy creation of the shared unit-cube geometry (`BoxMesh.tsx` lines 33
to 35): created only when the module slot is still empty. -/
def ensureBoxGeometry (w : World) : World :=
  match w.boxGeometry with
  | some _ => w
  | none =>
    { w with
        boxGeometry := some w.nextId
        nextId := w.nextId + 1
        geoCreated := w.geoCreated + 1 }

/-- First render of a `BoxMesh` instance: the material memo runs
`createStandardMaterial(message.props)` (a fresh material identity), the
shared geometry is created if absent, and the shadow-material memo runs,
returning no material when the derived shadow opacity is zero
(`BoxMesh.tsx` lines 21 to 58). -/
def mount (p : BoxProps) (w : World) : BoxInst × World :=
  let mId := w.nextId
  let w1 : World := { w with nextId := w.nextId + 1 }
  let w2 := ensureBoxGeometry w1
  let sOp := shadowOpacity p
  if sOp = 0 then
    (⟨matSigOf p, mId, [mId], sOp, none, []⟩, w2)
  else
    (⟨matSigOf p, mId, [mId], sOp, some (w2.nextId, sOp), [w2.nextId]⟩,
      { w2 with nextId := w2.nextId + 1 })

/-- Re-render of the material memo and its cleanup effect (`BoxMesh.tsx`
lines 21 to 42): when the dependency signature is unchanged the cached
material is returned and the factory is not invoked; when it changed, a
fresh material is created and the cleanup effect disposes the superseded
one. Returns `((matId, createdMats), world)`. -/
def updateMaterial (p : BoxProps) (inst : BoxInst) (w : World) :
    (Nat × List Nat) × World :=
  if matSigOf p = inst.matSig then
    ((inst.matId, inst.createdMats), w)
  else
    ((w.nextId, inst.createdMats ++ [w.nextId]),
      { w with
          nextId := w.nextId + 1
          matDisposeLog := w.matDisposeLog ++ [inst.matId] })

/-- Re-render of the shadow-material memo (`BoxMesh.tsx` lines 51 to 58):
recomputed only when the derived shadow opacity changed; the memo returns
no material when the opacity is zero. The source contains no cleanup
effect for the shadow material, so nothing is ever appended to
`shadowDisposeLog` here. Returns `((shadowMat, createdShadowMats), world)`. -/
def updateShadow (p : BoxProps) (inst : BoxInst) (w : World) :
    (Option (Nat × ℚ) × List Nat) × World :=
  if shadowOpacity p = inst.shadowOp then
    ((inst.shadowMat, inst.createdShadowMats), w)
  else if shadowOpacity p = 0 then
    ((none, inst.createdShadowMats), w)
  else
    ((some (w.nextId, shadowOpacity p), inst.createdShadowMats ++ [w.nextId]),
      { w with nextId := w.nextId + 1 })

/-- One settled re-render of a mounted `BoxMesh` with a new props record:
material memo and cleanup, lazy geometry check, shadow memo. -/
def updateBox (p : BoxProps) (inst : BoxInst) (w : World) : BoxInst × World :=
  let m := updateMaterial p inst w
  let w1 := ensureBoxGeometry m.2
  let s := updateShadow p inst w1
  (⟨matSigOf p, m.1.1, m.1.2, shadowOpacity p, s.1.1, s.1.2⟩, s.2)

/-- Unmounting a `BoxMesh`: the material cleanup effect runs and disposes
the current material (`BoxMesh.tsx` lines 38 to 42). The source has no
cleanup for the shadow material and never disposes the shared geometry. -/
def unmountBox (inst : BoxInst) (w : World) : World :=
  { w with matDisposeLog := w.matDisposeLog ++ [inst.matId] }

/-- Fold a sequence of props updates over a mounted instance. -/
def renderUpdates (ps : List BoxProps) (iw : BoxInst × World) : BoxInst × World :=
  ps.foldl (fun iw p => updateBox p iw.1 iw.2) iw

/-- Materials attributed to an instance that are still live: created and not
in the dispose log. -/
def liveMats (inst : BoxInst) (w : World) : List Nat :=
  inst.createdMats.filter (fun i => decide (i ∉ w.matDisposeLog))

theorem ensureBoxGeometry_matLog (w : World) :
    (ensureBoxGeometry w).matDisposeLog = w.matDisposeLog := by
  unfold ensureBoxGeometry
  cases w.boxGeometry <;> rfl

theorem ensureBoxGeometry_nextId (w : World) :
    w.nextId ≤ (ensureBoxGeometry w).nextId := by
  unfold ensureBoxGeometry
  cases w.boxGeometry
  · exact Nat.le_succ _
  · exact Nat.le_refl _

theorem updateShadow_matLog (p : BoxProps) (inst : BoxInst) (w : World) :
    ((updateShadow p inst w).2).matDisposeLog = w.matDisposeLog := by
  unfold updateShadow
  split
  · rfl
  · split <;> rfl

theorem updateShadow_nextId (p : BoxProps) (inst : BoxInst) (w : World) :
    w.nextId ≤ ((updateShadow p inst w).2).nextId := by
  unfold updateShadow
  split
  · exact Nat.le_refl _
  · split
    · exact Nat.le_refl _
    · exact Nat.le_succ _

theorem updateBox_matId (p : BoxProps) (inst : BoxInst) (w : World) :
    (updateBox p inst w).1.matId =
      (if matSigOf p = inst.matSig then inst.matId else w.nextId) := by
  unfold updateBox updateMaterial
  by_cases h : matSigOf p = inst.matSig <;> simp [h]

theorem updateBox_createdMats (p : BoxProps) (inst : BoxInst) (w : World) :
    (updateBox p inst w).1.createdMats =
      (if matSigOf p = inst.matSig then inst.createdMats
       else inst.createdMats ++ [w.nextId]) := by
  unfold updateBox updateMaterial
  by_cases h : matSigOf p = inst.matSig <;> simp [h]

theorem updateBox_matLog (p : BoxProps) (inst : BoxInst) (w : World) :
    ((updateBox p inst w).2).matDisposeLog =
      (if matSigOf p = inst.matSig then w.matDisposeLog
       else w.matDisposeLog ++ [inst.matId]) := by
  unfold updateBox updateMaterial
  by_cases h : matSigOf p = inst.matSig <;>
    simp [h, updateShadow_matLog, ensureBoxGeometry_matLog]

theorem ensure_shadow_nextId (p : BoxProps) (inst : BoxInst) (w : World) :
    w.nextId ≤ ((updateShadow p inst (ensureBoxGeometry w)).2).nextId :=
  le_trans (ensureBoxGeometry_nextId w) (updateShadow_nextId _ _ _)

theorem updateBox_nextId (p : BoxProps) (inst : BoxInst) (w : World) :
    (if matSigOf p = inst.matSig then w.nextId else w.nextId + 1) ≤
      ((updateBox p inst w).2).nextId := by
  unfold updateBox updateMaterial
  by_cases h : matSigOf p = inst.matSig <;> simp only [h, if_true, if_false]
  · exact ensure_shadow_nextId p inst w
  · exact ensure_shadow_nextId p inst
      { w with nextId := w.nextId + 1, matDisposeLog := w.matDisposeLog ++ [inst.matId] }

/-- Conservation invariant for the material slot of one mounted box: the
current material is among those created and not disposed, every superseded
material has been disposed exactly once, created identities are distinct,
and all identities seen so far are below the allocation counter. -/
structure MatInv (inst : BoxInst) (w : World) : Prop where
  mem : inst.matId ∈ inst.createdMats
  cur_live : inst.matId ∉ w.matDisposeLog
  old_disposed : ∀ i ∈ inst.createdMats, i ≠ inst.matId → w.matDisposeLog.count i = 1
  nodup : inst.createdMats.Nodup
  created_lt : ∀ i ∈ inst.createdMats, i < w.nextId
  disposed_lt : ∀ i ∈ w.matDisposeLog, i < w.nextId

theorem mount_init_fields (p : BoxProps) :
    (mount p initWorld).1.matId = 0 ∧ (mount p initWorld).1.createdMats = [0] ∧
    ((mount p initWorld).2).matDisposeLog = [] ∧ 2 ≤ ((mount p initWorld).2).nextId := by
  unfold mount ensureBoxGeometry initWorld
  by_cases h : shadowOpacity p = 0 <;> simp [h]

theorem mount_matInv (p : BoxProps) :
    MatInv (mount p initWorld).1 (mount p initWorld).2 := by
  obtain ⟨h1, h2, h3, h4⟩ := mount_init_fields p
  refine ⟨?_, ?_, ?_, ?_, ?_, ?_⟩
  · rw [h1, h2]; exact List.mem_singleton.mpr rfl
  · rw [h3]; exact List.not_mem_nil _
  · intro i hi hne
    rw [h2] at hi
    rw [h1] at hne
    exact absurd (List.mem_singleton.mp hi) hne
  · rw [h2]; exact List.nodup_singleton 0
  · intro i hi
    rw [h2] at hi
    rw [List.mem_singleton.mp hi]
    exact lt_of_lt_of_le (by norm_num) h4
  · intro i hi
    rw [h3] at hi
    exact absurd hi (List.not_mem_nil _)

theorem updateBox_matInv (p : BoxProps) (inst : BoxInst) (w : World)
    (h : MatInv inst w) :
    MatInv (updateBox p inst w).1 (updateBox p inst w).2 := by
  have hm := updateBox_matId p inst w
  have hc := updateBox_createdMats p inst w
  have hl := updateBox_matLog p inst w
  have hn := updateBox_nextId p inst w
  by_cases hs : matSigOf p = inst.matSig
  · rw [if_pos hs] at hm hc hl hn
    refine ⟨?_, ?_, ?_, ?_, ?_, ?_⟩
    · rw [hm, hc]; exact h.mem
    · rw [hm, hl]; exact h.cur_live
    · intro i hi hne
      rw [hc] at hi
      rw [hm] at hne
      rw [hl]
      exact h.old_disposed i hi hne
    · rw [hc]; exact h.nodup
    · intro i hi
      rw [hc] at hi
      exact lt_of_lt_of_le (h.created_lt i hi) hn
    · intro i hi
      rw [hl] at hi
      exact lt_of_lt_of_le (h.disposed_lt i hi) hn
  · rw [if_neg hs] at hm hc hl hn
    have hfresh_created : w.nextId ∉ inst.createdMats := by
      intro hmem
      exact absurd (h.created_lt _ hmem) (lt_irrefl _)
    have hfresh_disposed : w.nextId ∉ w.matDisposeLog := by
      intro hmem
      exact absurd (h.disposed_lt _ hmem) (lt_irrefl _)
    refine ⟨?_, ?_, ?_, ?_, ?_, ?_⟩
    · rw [hm, hc]
      exact List.mem_append.mpr (Or.inr (List.mem_singleton.mpr rfl))
    · rw [hm, hl]
      intro hmem
      rcases List.mem_append.mp hmem with hin | hin
      · exact hfresh_disposed hin
      · have := List.mem_singleton.mp hin
        exact absurd (h.created_lt _ h.mem) (by rw [this]; exact lt_irrefl _)
    · intro i hi hne
      rw [hc] at hi
      rw [hm] at hne
      rw [hl, List.count_append]
      rcases List.mem_append.mp hi with hin | hin
      · by_cases hcur : i = inst.matId
        · rw [hcur]
          have hz : w.matDisposeLog.count inst.matId = 0 :=
            List.count_eq_zero.mpr h.cur_live
          rw [hz]
          simp
        · have h1 := h.old_disposed i hin hcur
          have hz : List.count i [inst.matId] = 0 := by
            rw [List.count_eq_zero]
            intro hmem
            exact hcur (List.mem_singleton.mp hmem)
          omega
      · exact absurd (List.mem_singleton.mp hin) hne
    · rw [hc]
      refine List.Nodup.append h.nodup (List.nodup_singleton _) ?_
      intro a ha hb
      rw [List.mem_singleton.mp hb] at ha
      exact hfresh_created ha
    · intro i hi
      rw [hc] at hi
      rcases List.mem_append.mp hi with hin | hin
      · exact lt_of_lt_of_le (Nat.lt_succ_of_lt (h.created_lt i hin)) hn
      · rw [List.mem_singleton.mp hin]
        exact lt_of_lt_of_le (Nat.lt_succ_self _) hn
    · intro i hi
      rw [hl] at hi
      rcases List.mem_append.mp hi with hin | hin
      · exact lt_of_lt_of_le (Nat.lt_succ_of_lt (h.disposed_lt i hin)) hn
      · rw [List.mem_singleton.mp hin]
        exact lt_of_lt_of_le (Nat.lt_succ_of_lt (h.created_lt _ h.mem)) hn

theorem renderUpdates_matInv (ps : List BoxProps) (iw : BoxInst × World)
    (h : MatInv iw.1 iw.2) : MatInv (renderUpdates ps iw).1 (renderUpdates ps iw).2 := by
  induction ps generalizing iw with
  | nil => exact h
  | cons p ps ih =>
    exact ih _ (updateBox_matInv p iw.1 iw.2 h)

theorem filter_eq_single_of_nodup {l : List Nat} {a : Nat}
    (hn : l.Nodup) (ha : a ∈ l) :
    l.filter (fun i => decide (i = a)) = [a] := by
  induction l with
  | nil => cases ha
  | cons b t ih =>
    rcases List.mem_cons.mp ha with hba | ht
    · have hbt : b ∉ t := (List.nodup_cons.mp hn).1
      have hft : t.filter (fun i => decide (i = a)) = [] := by
        apply List.filter_eq_nil_iff.mpr
        intro x hx
        simp only [decide_eq_true_eq]
        intro hxa
        rw [hxa, hba] at hx
        exact hbt hx
      rw [List.filter_cons, hft]
      simp [← hba]
    · have hba : b ≠ a := by
        intro hEq
        exact (List.nodup_cons.mp hn).1 (hEq ▸ ht)
      have ihr := ih (List.nodup_cons.mp hn).2 ht
      simp [List.filter_cons, hba, ihr]

theorem matInv_liveMats (inst : BoxInst) (w : World) (h : MatInv inst w) :
    liveMats inst w = [inst.matId] := by
  unfold liveMats
  have hcongr : ∀ i ∈ inst.createdMats,
      decide (i ∉ w.matDisposeLog) = decide (i = inst.matId) := by
    intro i hi
    by_cases hcur : i = inst.matId
    · subst hcur
      simp [h.cur_live]
    · have hd := h.old_disposed i hi hcur
      have hmem : i ∈ w.matDisposeLog := List.count_pos_iff.mp (by omega)
      simp [hmem, hcur]
  rw [List.filter_congr hcongr]
  exact filter_eq_single_of_nodup h.nodup h.mem

theorem matInv_conclusions (inst : BoxInst) (w : World) (h : MatInv inst w) :
    liveMats inst w = [inst.matId] ∧
    (∀ i ∈ inst.createdMats, i ≠ inst.matId → w.matDisposeLog.count i = 1) ∧
    liveMats inst (unmountBox inst w) = [] ∧
    ((unmountBox inst w)).matDisposeLog.count inst.matId = 1 := by
  refine ⟨matInv_liveMats inst w h, h.old_disposed, ?_, ?_⟩
  · unfold liveMats unmountBox
    apply List.filter_eq_nil_iff.mpr
    intro i hi
    simp only [decide_eq_true_eq, not_not]
    by_cases hcur : i = inst.matId
    · refine List.mem_append.mpr (Or.inr ?_)
      rw [hcur]
      exact List.mem_singleton.mpr rfl
    · have h1 := h.old_disposed i hi hcur
      exact List.mem_append.mpr (Or.inl (List.count_pos_iff.mp (by omega)))
  · unfold unmountBox
    simp only
    rw [List.count_append, List.count_eq_zero.mpr h.cur_live]
    simp

/-- Claim C1: for any sequence of property updates applied to one mounted
box node, exactly one material attributed to that node is live at the end
of every settled reconciliation pass, every superseded material has been
disposed exactly once (never twice, never left live beside the new one),
and unmounting disposes the current material exactly once, leaving no
live material. -/
theorem box_material_conservation (p0 : BoxProps) (ps : List BoxProps) :
    liveMats (renderUpdates ps (mount p0 initWorld)).1
        (renderUpdates ps (mount p0 initWorld)).2 =
      [(renderUpdates ps (mount p0 initWorld)).1.matId] ∧
    (∀ i ∈ (renderUpdates ps (mount p0 initWorld)).1.createdMats,
        i ≠ (renderUpdates ps (mount p0 initWorld)).1.matId →
        ((renderUpdates ps (mount p0 initWorld)).2).matDisposeLog.count i = 1) ∧
    liveMats (renderUpdates ps (mount p0 initWorld)).1
        (unmountBox (renderUpdates ps (mount p0 initWorld)).1
          (renderUpdates ps (mount p0 initWorld)).2) = [] ∧
    ((unmountBox (renderUpdates ps (mount p0 initWorld)).1
        (renderUpdates ps (mount p0 initWorld)).2)).matDisposeLog.count
      (renderUpdates ps (mount p0 initWorld)).1.matId = 1 :=
  matInv_conclusions _ _
    (renderUpdates_matInv ps (mount p0 initWorld) (mount_matInv p0))

/-- Claim C5: the box material is recomputed exactly when the dependency
signature, the tuple of material kind, color, wireframe, opacity, flat
shading and side, differs from the previous render; on an unchanged
signature the cached material identity is returned and no new material is
created; on a changed signature exactly one fresh material is created;
and fields outside the signature (receive or cast shadow flags, scale,
dimensions) never influence the signature. -/
theorem box_material_memo (p : BoxProps) (inst : BoxInst) (w : World) :
    ((updateBox p inst w).1.matId =
      if matSigOf p = inst.matSig then inst.matId else w.nextId) ∧
    ((updateBox p inst w).1.createdMats =
      if matSigOf p = inst.matSig then inst.createdMats
      else inst.createdMats ++ [w.nextId]) ∧
    (∀ m c wf o fs sd rs1 cs1 sc1 d1 rs2 cs2 sc2 d2,
      matSigOf ⟨m, c, wf, o, fs, sd, rs1, cs1, sc1, d1⟩ =
        matSigOf ⟨m, c, wf, o, fs, sd, rs2, cs2, sc2, d2⟩) := by
  refine ⟨updateBox_matId p inst w, updateBox_createdMats p inst w, ?_⟩
  intro m c wf o fs sd rs1 cs1 sc1 d1 rs2 cs2 sc2 d2
  rfl

/-- Box props with a given numeric shadow opacity, otherwise fixed. -/
def shadowProps (x : ℚ) : BoxProps :=
  ⟨MaterialKind.standard, ⟨255, 0, 0⟩, false, none, false, Side.front,
    ShadowProp.opacity x, false, ScaleProp.uniform 1, ⟨1, 1, 1⟩⟩

/-- Claim C6 is refuted by the source: `BoxMesh.tsx` has no cleanup effect
for the shadow material. Mounting with shadow opacity 1/2 creates a
ShadowMaterial; updating to a different positive opacity creates a second
one while the first is never disposed; updating to zero drops the cached
material without disposing it; unmounting disposes nothing either: the
shadow dispose log stays empty throughout. -/
theorem shadow_material_never_disposed :
    (mount (shadowProps (1/2)) initWorld).1.shadowMat = some (2, 1/2) ∧
    (updateBox (shadowProps (1/4)) (mount (shadowProps (1/2)) initWorld).1
        (mount (shadowProps (1/2)) initWorld).2).1.createdShadowMats = [2, 3] ∧
    ((updateBox (shadowProps (1/4)) (mount (shadowProps (1/2)) initWorld).1
        (mount (shadowProps (1/2)) initWorld).2).2).shadowDisposeLog = [] ∧
    (updateBox (shadowProps 0) (mount (shadowProps (1/2)) initWorld).1
        (mount (shadowProps (1/2)) initWorld).2).1.shadowMat = none ∧
    ((updateBox (shadowProps 0) (mount (shadowProps (1/2)) initWorld).1
        (mount (shadowProps (1/2)) initWorld).2).2).shadowDisposeLog = [] ∧
    (unmountBox
        (updateBox (shadowProps 0) (mount (shadowProps (1/2)) initWorld).1
          (mount (shadowProps (1/2)) initWorld).2).1
        (updateBox (shadowProps 0) (mount (shadowProps (1/2)) initWorld).1
          (mount (shadowProps (1/2)) initWorld).2).2).shadowDisposeLog = [] := by
  have h2 : ((1 : ℚ)/2) ≠ 0 := by norm_num
  have h4 : ((1 : ℚ)/4) ≠ 0 := by norm_num
  have h42 : ((1 : ℚ)/4) ≠ (1 : ℚ)/2 := by norm_num
  have h02 : ((0 : ℚ)) ≠ (1 : ℚ)/2 := by norm_num
  refine ⟨?_, ?_, ?_, ?_, ?_, ?_⟩ <;>
    simp [mount, updateBox, updateMaterial, updateShadow, unmountBox,
      ensureBoxGeometry, initWorld, shadowProps, shadowOpacity, matSigOf,
      h2, h4, h42, h02]

/-- Process-level events on the collection of mounted box instances. -/
inductive PEvent where
  | mountEv (p : BoxProps)
  | updateEv (k : Nat) (p : BoxProps)
  | unmountEv (k : Nat)

/-- A process: the shared world plus the mounted instances (a slot becomes
`none` once its instance unmounts). -/
structure Process where
  world : World
  insts : List (Option BoxInst)

/-- The initial process: fresh world, no instances. -/
def initProcess : Process := ⟨initWorld, []⟩

/-- Process step: mounting appends a new instance, updating re-renders an
existing one, unmounting runs its cleanup effects and clears the slot. -/
def pstep (P : Process) (e : PEvent) : Process :=
  match e with
  | PEvent.mountEv p =>
    let r := mount p P.world
    ⟨r.2, P.insts ++ [some r.1]⟩
  | PEvent.updateEv k p =>
    match P.insts.get? k with
    | some (some inst) =>
      let r := updateBox p inst P.world
      ⟨r.2, P.insts.set k (some r.1)⟩
    | _ => P
  | PEvent.unmountEv k =>
    match P.insts.get? k with
    | some (some inst) => ⟨unmountBox inst P.world, P.insts.set k none⟩
    | _ => P

/-- Run a list of process events. -/
def prun (evs : List PEvent) (P : Process) : Process := evs.foldl pstep P

theorem ensureBoxGeometry_pres {w : World} {g : Nat}
    (h : w.boxGeometry = some g) : ensureBoxGeometry w = w := by
  unfold ensureBoxGeometry
  rw [h]

theorem ensureBoxGeometry_geoLog (w : World) :
    (ensureBoxGeometry w).geoDisposeLog = w.geoDisposeLog := by
  unfold ensureBoxGeometry
  cases w.boxGeometry <;> rfl

theorem updateShadow_world_geo (p : BoxProps) (inst : BoxInst) (w : World) :
    ((updateShadow p inst w).2).boxGeometry = w.boxGeometry ∧
    ((updateShadow p inst w).2).geoCreated = w.geoCreated ∧
    ((updateShadow p inst w).2).geoDisposeLog = w.geoDisposeLog := by
  unfold updateShadow
  split
  · exact ⟨rfl, rfl, rfl⟩
  · split <;> exact ⟨rfl, rfl, rfl⟩

theorem updateMaterial_world_geo (p : BoxProps) (inst : BoxInst) (w : World) :
    ((updateMaterial p inst w).2).boxGeometry = w.boxGeometry ∧
    ((updateMaterial p inst w).2).geoCreated = w.geoCreated ∧
    ((updateMaterial p inst w).2).geoDisposeLog = w.geoDisposeLog := by
  unfold updateMaterial
  split <;> exact ⟨rfl, rfl, rfl⟩

/-- Geometry invariant: the shared geometry was never disposed, was created
at most once, and was not created yet while the slot is empty. -/
def GeoInv (w : World) : Prop :=
  w.geoDisposeLog = [] ∧ w.geoCreated ≤ 1 ∧
  (w.boxGeometry = none → w.geoCreated = 0)

theorem ensureBoxGeometry_geoInv {w : World} (h : GeoInv w) :
    GeoInv (ensureBoxGeometry w) := by
  cases hg : w.boxGeometry with
  | some g =>
    rw [ensureBoxGeometry_pres hg]
    exact h
  | none =>
    unfold ensureBoxGeometry
    rw [hg]
    refine ⟨h.1, ?_, ?_⟩
    · show w.geoCreated + 1 ≤ 1
      rw [h.2.2 hg]
    · intro hc
      exact Option.noConfusion hc

theorem ensureBoxGeometry_isSome (w : World) :
    ((ensureBoxGeometry w).boxGeometry).isSome = true := by
  unfold ensureBoxGeometry
  cases hg : w.boxGeometry <;> simp [hg]

theorem mount_world (p : BoxProps) (w : World) :
    (mount p w).2 = (if shadowOpacity p = 0
      then ensureBoxGeometry { w with nextId := w.nextId + 1 }
      else { ensureBoxGeometry { w with nextId := w.nextId + 1 } with
          nextId := (ensureBoxGeometry { w with nextId := w.nextId + 1 }).nextId + 1 }) := by
  unfold mount
  by_cases hs : shadowOpacity p = 0 <;> simp [hs]

theorem mount_geoInv {w : World} (p : BoxProps) (h : GeoInv w) :
    GeoInv ((mount p w).2) := by
  rw [mount_world]
  have hens : GeoInv (ensureBoxGeometry { w with nextId := w.nextId + 1 }) :=
    ensureBoxGeometry_geoInv h
  by_cases hs : shadowOpacity p = 0
  · rw [if_pos hs]
    exact hens
  · rw [if_neg hs]
    exact hens

theorem updateBox_geoInv {w : World} (p : BoxProps) (inst : BoxInst)
    (h : GeoInv w) : GeoInv ((updateBox p inst w).2) := by
  unfold updateBox
  obtain ⟨hg1, hg2, hg3⟩ :=
    updateShadow_world_geo p inst (ensureBoxGeometry (updateMaterial p inst w).2)
  have hmat : GeoInv ((updateMaterial p inst w).2) := by
    obtain ⟨m1, m2, m3⟩ := updateMaterial_world_geo p inst w
    exact ⟨by rw [m3]; exact h.1, by rw [m2]; exact h.2.1,
      by rw [m1, m2]; exact h.2.2⟩
  have hens := ensureBoxGeometry_geoInv hmat
  exact ⟨by rw [hg3]; exact hens.1, by rw [hg2]; exact hens.2.1,
    by rw [hg1, hg2]; exact hens.2.2⟩

theorem unmountBox_geoInv {w : World} (inst : BoxInst) (h : GeoInv w) :
    GeoInv (unmountBox inst w) := h

theorem pstep_geoInv {P : Process} (e : PEvent) (h : GeoInv P.world) :
    GeoInv ((pstep P e).world) := by
  cases e with
  | mountEv p =>
    simp only [pstep]
    exact mount_geoInv p h
  | updateEv k p =>
    simp only [pstep]
    cases hk : P.insts.get? k with
    | none => exact h
    | some o =>
      cases o with
      | none => exact h
      | some inst => exact updateBox_geoInv p inst h
  | unmountEv k =>
    simp only [pstep]
    cases hk : P.insts.get? k with
    | none => exact h
    | some o =>
      cases o with
      | none => exact h
      | some inst => exact unmountBox_geoInv inst h

theorem prun_geoInv {P : Process} (evs : List PEvent) (h : GeoInv P.world) :
    GeoInv ((prun evs P).world) := by
  induction evs generalizing P with
  | nil => exact h
  | cons e evs ih => exact ih (pstep_geoInv e h)

theorem mount_geo_pres {w : World} {g : Nat} (p : BoxProps)
    (h : w.boxGeometry = some g) : ((mount p w).2).boxGeometry = some g := by
  rw [mount_world]
  have hens : ensureBoxGeometry { w with nextId := w.nextId + 1 } =
      { w with nextId := w.nextId + 1 } :=
    @ensureBoxGeometry_pres { w with nextId := w.nextId + 1 } g h
  by_cases hs : shadowOpacity p = 0
  · rw [if_pos hs, hens]
    exact h
  · rw [if_neg hs]
    show (ensureBoxGeometry { w with nextId := w.nextId + 1 }).boxGeometry = some g
    rw [hens]
    exact h

theorem updateBox_geo_pres {w : World} {g : Nat} (p : BoxProps) (inst : BoxInst)
    (h : w.boxGeometry = some g) : ((updateBox p inst w).2).boxGeometry = some g := by
  unfold updateBox
  obtain ⟨hg1, _, _⟩ :=
    updateShadow_world_geo p inst (ensureBoxGeometry (updateMaterial p inst w).2)
  rw [hg1]
  obtain ⟨m1, _, _⟩ := updateMaterial_world_geo p inst w
  rw [ensureBoxGeometry_pres (by rw [m1]; exact h), m1]
  exact h

theorem pstep_geo_pres {P : Process} {g : Nat} (e : PEvent)
    (h : P.world.boxGeometry = some g) : ((pstep P e).world).boxGeometry = some g := by
  cases e with
  | mountEv p =>
    simp only [pstep]
    exact mount_geo_pres p h
  | updateEv k p =>
    simp only [pstep]
    cases hk : P.insts.get? k with
    | none => exact h
    | some o =>
      cases o with
      | none => exact h
      | some inst => exact updateBox_geo_pres p inst h
  | unmountEv k =>
    simp only [pstep]
    cases hk : P.insts.get? k with
    | none => exact h
    | some o =>
      cases o with
      | none => exact h
      | some inst => exact h

theorem prun_geo_pres {P : Process} {g : Nat} (evs : List PEvent)
    (h : P.world.boxGeometry = some g) : ((prun evs P).world).boxGeometry = some g := by
  induction evs generalizing P with
  | nil => exact h
  | cons e evs ih => exact ih (pstep_geo_pres e h)

theorem initProcess_geoInv : GeoInv initProcess.world :=
  ⟨rfl, by norm_num [initProcess, initWorld], fun _ => rfl⟩

/-- Claim C7: the shared unit-cube geometry is created at most once per
process (lazily, on the first box render), it is never disposed, and once
created every later render of any box instance sees the very same
geometry identity, whatever events follow. -/
theorem box_geometry_shared (evs : List PEvent) :
    ((prun evs initProcess).world.geoDisposeLog = [] ∧
      (prun evs initProcess).world.geoCreated ≤ 1) ∧
    (∀ g, (prun evs initProcess).world.boxGeometry = some g →
      ∀ evs2, (prun evs2 (prun evs initProcess)).world.boxGeometry = some g ∧
        (prun evs2 (prun evs initProcess)).world.geoDisposeLog = []) ∧
    (∀ p, (((pstep (prun evs initProcess) (PEvent.mountEv p)).world.boxGeometry).isSome
      = true)) := by
  have hInv := prun_geoInv evs initProcess_geoInv
  refine ⟨⟨hInv.1, hInv.2.1⟩, ?_, ?_⟩
  · intro g hg evs2
    exact ⟨prun_geo_pres evs2 hg, (prun_geoInv evs2 hInv).1⟩
  · intro p
    show (((mount p (prun evs initProcess).world).2).boxGeometry).isSome = true
    rw [mount_world]
    by_cases hs : shadowOpacity p = 0
    · rw [if_pos hs]
      exact ensureBoxGeometry_isSome _
    · rw [if_neg hs]
      exact ensureBoxGeometry_isSome _

/-- Witness for claim C7 at a concrete run: after one mount the geometry
slot holds identity 1, and it still does (undisposed) after a further
update event. -/
theorem box_geometry_shared_witness :
    (prun [PEvent.updateEv 0 (shadowProps 0)]
        (prun [PEvent.mountEv (shadowProps 0)] initProcess)).world.boxGeometry
      = some 1 ∧
    (prun [PEvent.updateEv 0 (shadowProps 0)]
        (prun [PEvent.mountEv (shadowProps 0)] initProcess)).world.geoDisposeLog
      = [] :=
  (box_geometry_shared [PEvent.mountEv (shadowProps 0)]).2.1 1
    (by simp [prun, pstep, mount, ensureBoxGeometry, initProcess, initWorld,
      shadowProps, shadowOpacity])
    [PEvent.updateEv 0 (shadowProps 0)]

/-- Observable output of one `BoxMesh` render (the JSX of `BoxMesh.tsx`
lines 68 to 85). -/
structure RenderOut where
  geometry : Option Nat
  receiveShadow : Bool
  castShadow : Bool
  scaledDimensions : V3
  shadowMesh : Option ℚ
deriving DecidableEq

/-- Embedding of the `BoxMesh` render: the main mesh uses the shared
geometry, its scale is the componentwise product of the normalised scale
and the dimensions, built-in shadow receiving is enabled exactly on
`receive_shadow === true`, and the shadow sub-mesh is emitted only when
the memoised shadow material exists and the derived shadow opacity is
positive (`shadowMaterial && shadowOpacity > 0`); the sub-mesh material
carries the opacity the material was constructed with. -/
def renderBox (p : BoxProps) (inst : BoxInst) (w : World) : RenderOut :=
  let s := normalizeScale p.scale
  let d := p.dimensions
  ⟨w.boxGeometry,
    decide (p.receive_shadow = ShadowProp.flag true),
    p.cast_shadow,
    ⟨s.x * d.x, s.y * d.y, s.z * d.z⟩,
    match inst.shadowMat with
    | some m => if 0 < shadowOpacity p then some m.2 else none
    | none => none⟩

theorem mount_shadowMat (p : BoxProps) :
    (mount p initWorld).1.shadowMat =
      (if shadowOpacity p = 0 then none else some (2, shadowOpacity p)) := by
  unfold mount
  by_cases hs : shadowOpacity p = 0 <;>
    simp [hs, ensureBoxGeometry, initWorld]

/-- Claim C10: on a settled render, the main mesh receives built-in
shadows exactly when `receive_shadow` is literally `true`; the shadow
sub-mesh exists exactly when `receive_shadow` is a number strictly
greater than zero, and then its material opacity equals that number; a
boolean `receive_shadow` yields derived shadow opacity zero and no
shadow sub-mesh. -/
theorem box_shadow_render (p : BoxProps) :
    ((renderBox p (mount p initWorld).1 (mount p initWorld).2).receiveShadow = true ↔
      p.receive_shadow = ShadowProp.flag true) ∧
    (renderBox p (mount p initWorld).1 (mount p initWorld).2).shadowMesh =
      (match p.receive_shadow with
       | ShadowProp.opacity x => if 0 < x then some x else none
       | ShadowProp.flag _ => none) ∧
    shadowOpacity p =
      (match p.receive_shadow with
       | ShadowProp.opacity x => x
       | ShadowProp.flag _ => 0) := by
  refine ⟨?_, ?_, rfl⟩
  · simp [renderBox]
  · show (match (mount p initWorld).1.shadowMat with
      | some m => if 0 < shadowOpacity p then some m.2 else none
      | none => none) =
      (match p.receive_shadow with
       | ShadowProp.opacity x => if 0 < x then some x else none
       | ShadowProp.flag _ => none)
    rw [mount_shadowMat]
    cases hr : p.receive_shadow with
    | flag b =>
      have hz : shadowOpacity p = 0 := by
        unfold shadowOpacity
        rw [hr]
      rw [if_pos hz]
    | opacity x =>
      have hx : shadowOpacity p = x := by
        unfold shadowOpacity
        rw [hr]
      by_cases hz : x = 0
      · rw [if_pos (by rw [hx, hz]), hz]
        simp
      · rw [if_neg (by rw [hx]; exact hz), hx]

/-- Cursor feedback mode derived from the hover count. -/
inductive CursorMode where
  | default
  | pointer
deriving DecidableEq

/-- Modelled from the spec: per-node interaction state sampled on each
frame tick (the `SceneTree.tsx` hover machinery is not among the sampled
sources): the effective visibility, the clickable flag and the hover
flag of one scene node. -/
structure SceneNode where
  visible : Bool
  clickable : Bool
  hovered : Bool
deriving DecidableEq

/-- Modelled from the spec: the process-wide hover record: the hover
counter and the cursor mode derived from it. -/
structure HoverCounter where
  count : Int
  cursor : CursorMode
deriving DecidableEq

/-- Modelled from the spec: the single authoritative release path for the
hover counter; the production decrement is clamped so the counter floors
at zero, and the derived cursor is recomputed from the new count. -/
def releaseHover (c : HoverCounter) : HoverCounter :=
  let n := max (c.count - 1) 0
  ⟨n, if 0 < n then CursorMode.pointer else CursorMode.default⟩

/-- Modelled from the spec: the single authoritative acquire path for the
hover counter; entering Hovered increments the count and the cursor
becomes the pointer. -/
def acquireHover (c : HoverCounter) : HoverCounter :=
  ⟨c.count + 1, CursorMode.pointer⟩

/-- Modelled from the spec: a node whose hover must be force-cleared by
the frame tick: it is hovered while invisible or non-clickable. -/
def staleHover (n : SceneNode) : Bool :=
  n.hovered && (!n.visible || !n.clickable)

/-- Modelled from the spec: one frame tick walks all nodes; every stale
hovered node is forced to Idle and releases one hover count, with no
pointer event involved. -/
def tickAux : List SceneNode → HoverCounter → List SceneNode × HoverCounter
  | [], c => ([], c)
  | n :: ns, c =>
    if staleHover n then
      let r := tickAux ns (releaseHover c)
      ({ n with hovered := false } :: r.1, r.2)
    else
      let r := tickAux ns c
      (n :: r.1, r.2)

/-- The interaction machine state: the node list and the hover record. -/
structure IState where
  nodes : List SceneNode
  ctr : HoverCounter
deriving DecidableEq

/-- One frame tick of the interaction machine. -/
def tick (s : IState) : IState :=
  ⟨(tickAux s.nodes s.ctr).1, (tickAux s.nodes s.ctr).2⟩

/-- Modelled from the spec: per-frame pointer processing: the node at the
hit index becomes hovered when visible and clickable, every other node
leaves the Hovered state; each per-node transition goes through the
counter funnel. -/
def moveAux (hit : Option Nat) :
    Nat → List SceneNode → HoverCounter → List SceneNode × HoverCounter
  | _, [], c => ([], c)
  | j, n :: ns, c =>
    let want := decide (hit = some j) && n.visible && n.clickable
    if n.hovered && !want then
      let r := moveAux hit (j + 1) ns (releaseHover c)
      ({ n with hovered := false } :: r.1, r.2)
    else if !n.hovered && want then
      let r := moveAux hit (j + 1) ns (acquireHover c)
      ({ n with hovered := true } :: r.1, r.2)
    else
      let r := moveAux hit (j + 1) ns c
      (n :: r.1, r.2)

/-- Store mutation: set the visibility flag of the node at an index. -/
def setNodeVisible (nodes : List SceneNode) (i : Nat) (b : Bool) : List SceneNode :=
  match nodes.get? i with
  | some n => nodes.set i { n with visible := b }
  | none => nodes

/-- Store mutation: set the clickable flag of the node at an index. -/
def setNodeClickable (nodes : List SceneNode) (i : Nat) (b : Bool) : List SceneNode :=
  match nodes.get? i with
  | some n => nodes.set i { n with clickable := b }
  | none => nodes

/-- Interaction events: pointer movement, attribute toggles, frame tick. -/
inductive IEvent where
  | pointerMove (hit : Option Nat)
  | setVisible (i : Nat) (b : Bool)
  | setClickable (i : Nat) (b : Bool)
  | frame

/-- One interaction machine step. Attribute changes only mutate the store;
their hover-clearing consequence is sampled by the next frame tick. -/
def istep (s : IState) : IEvent → IState
  | IEvent.pointerMove hit =>
    ⟨(moveAux hit 0 s.nodes s.ctr).1, (moveAux hit 0 s.nodes s.ctr).2⟩
  | IEvent.setVisible i b => ⟨setNodeVisible s.nodes i b, s.ctr⟩
  | IEvent.setClickable i b => ⟨setNodeClickable s.nodes i b, s.ctr⟩
  | IEvent.frame => tick s

/-- Run a list of interaction events. -/
def irun (evs : List IEvent) (s : IState) : IState := evs.foldl istep s

/-- The initial interaction state: zero hovered, default cursor. -/
def initIState (nodes : List SceneNode) : IState :=
  ⟨nodes, ⟨0, CursorMode.default⟩⟩

/-- Counter invariant: non-negative count, cursor is the pointer exactly
when the count is positive. -/
def CtrInv (c : HoverCounter) : Prop :=
  0 ≤ c.count ∧ (c.cursor = CursorMode.pointer ↔ 0 < c.count)

theorem releaseHover_ctrInv (c : HoverCounter) : CtrInv (releaseHover c) := by
  unfold releaseHover CtrInv
  constructor
  · exact le_max_right _ _
  · show (if 0 < max (c.count - 1) 0 then CursorMode.pointer else CursorMode.default) =
        CursorMode.pointer ↔ 0 < max (c.count - 1) 0
    by_cases h : 0 < max (c.count - 1) 0
    · rw [if_pos h]
      exact ⟨fun _ => h, fun _ => rfl⟩
    · rw [if_neg h]
      exact ⟨fun hc => CursorMode.noConfusion hc, fun hc => absurd hc h⟩

theorem acquireHover_ctrInv {c : HoverCounter} (h : CtrInv c) :
    CtrInv (acquireHover c) := by
  unfold acquireHover CtrInv
  constructor
  · show (0 : Int) ≤ c.count + 1
    have := h.1
    omega
  · constructor
    · intro _
      show (0 : Int) < c.count + 1
      have := h.1
      omega
    · intro _
      rfl

theorem tickAux_ctrInv (ns : List SceneNode) {c : HoverCounter} (h : CtrInv c) :
    CtrInv ((tickAux ns c).2) := by
  induction ns generalizing c with
  | nil => exact h
  | cons n t ih =>
    unfold tickAux
    by_cases hs : staleHover n = true
    · rw [if_pos hs]
      exact ih (releaseHover_ctrInv c)
    · rw [if_neg hs]
      exact ih h

theorem moveAux_ctrInv (hit : Option Nat) (ns : List SceneNode) (j : Nat)
    {c : HoverCounter} (h : CtrInv c) : CtrInv ((moveAux hit j ns c).2) := by
  induction ns generalizing j c with
  | nil => exact h
  | cons n t ih =>
    unfold moveAux
    by_cases h1 : (n.hovered && !(decide (hit = some j) && n.visible && n.clickable)) = true
    · rw [if_pos h1]
      exact ih (j + 1) (releaseHover_ctrInv c)
    · rw [if_neg h1]
      by_cases h2 : (!n.hovered && (decide (hit = some j) && n.visible && n.clickable)) = true
      · rw [if_pos h2]
        exact ih (j + 1) (acquireHover_ctrInv h)
      · rw [if_neg h2]
        exact ih (j + 1) h

theorem istep_ctrInv {s : IState} (e : IEvent) (h : CtrInv s.ctr) :
    CtrInv ((istep s e).ctr) := by
  cases e with
  | pointerMove hit => exact moveAux_ctrInv hit s.nodes 0 h
  | setVisible i b => exact h
  | setClickable i b => exact h
  | frame => exact tickAux_ctrInv s.nodes h

theorem irun_ctrInv {s : IState} (evs : List IEvent) (h : CtrInv s.ctr) :
    CtrInv ((irun evs s).ctr) := by
  induction evs generalizing s with
  | nil => exact h
  | cons e evs ih => exact ih (istep_ctrInv e h)

/-- Claim C4: for every interleaving of pointer moves, visibility and
clickability toggles and frame ticks, the hover count never goes negative
(the funnelled decrement is clamped at zero), the cursor is the pointer
exactly when the count is positive, and a zero count always means the
default cursor. -/
theorem hover_count_invariant (nodes : List SceneNode) (evs : List IEvent) :
    0 ≤ (irun evs (initIState nodes)).ctr.count ∧
    ((irun evs (initIState nodes)).ctr.cursor = CursorMode.pointer ↔
      0 < (irun evs (initIState nodes)).ctr.count) ∧
    ((irun evs (initIState nodes)).ctr.count = 0 →
      (irun evs (initIState nodes)).ctr.cursor = CursorMode.default) := by
  have h0 : CtrInv (initIState nodes).ctr := by
    constructor
    · exact le_refl 0
    · constructor
      · intro hcon
        exact CursorMode.noConfusion hcon
      · intro hcon
        have hfalse : (0 : Int) < 0 := hcon
        omega
  have h := irun_ctrInv evs h0
  refine ⟨h.1, h.2, ?_⟩
  intro hz
  cases hcur : (irun evs (initIState nodes)).ctr.cursor with
  | default => rfl
  | pointer =>
    have := h.2.mp hcur
    omega

/-- Witness for claim C4: hovering a node, hiding it and ticking a frame
ends with a zero count and the default cursor. -/
theorem hover_count_invariant_witness :
    (irun [IEvent.pointerMove (some 0), IEvent.setVisible 0 false, IEvent.frame]
        (initIState [⟨true, true, false⟩])).ctr.cursor = CursorMode.default :=
  (hover_count_invariant [⟨true, true, false⟩]
      [IEvent.pointerMove (some 0), IEvent.setVisible 0 false, IEvent.frame]).2.2
    (by decide)

/-- What the frame tick does to one node in isolation. -/
def tickNode (n : SceneNode) : SceneNode :=
  if staleHover n then { n with hovered := false } else n

theorem tickAux_nodes (ns : List SceneNode) (c : HoverCounter) :
    (tickAux ns c).1 = ns.map tickNode := by
  induction ns generalizing c with
  | nil => rfl
  | cons n t ih =>
    by_cases hs : staleHover n = true <;>
      simp [tickAux, tickNode, hs, ih]

theorem tickAux_ctr (ns : List SceneNode) (c : HoverCounter) :
    (tickAux ns c).2 = releaseHover^[ns.countP staleHover] c := by
  induction ns generalizing c with
  | nil => rfl
  | cons n t ih =>
    by_cases hs : staleHover n = true
    · have hstep : (tickAux (n :: t) c).2 = (tickAux t (releaseHover c)).2 := by
        simp [tickAux, hs]
      rw [hstep, ih, List.countP_cons, hs]
      simp [Function.iterate_succ_apply]
    · have hstep : (tickAux (n :: t) c).2 = (tickAux t c).2 := by
        simp [tickAux, hs]
      rw [hstep, ih, List.countP_cons]
      simp [hs]

theorem countP_stale_unique {ns : List SceneNode} {i : Nat} {n : SceneNode}
    (hget : ns.get? i = some n) (hstale : staleHover n = true)
    (huniq : ∀ j m, ns.get? j = some m → m.hovered = true → j = i) :
    ns.countP staleHover = 1 := by
  induction ns generalizing i with
  | nil => cases hget
  | cons a t ih =>
    rw [List.countP_cons]
    cases i with
    | zero =>
      have ha : a = n := by
        rw [List.get?_cons_zero] at hget
        exact Option.some.inj hget
      have ht : t.countP staleHover = 0 := by
        rw [List.countP_eq_zero]
        intro x hx
        obtain ⟨j, hj⟩ := List.mem_iff_get?.mp hx
        have hnh : x.hovered = false := by
          cases hxv : x.hovered
          · rfl
          · have hcon := huniq (j + 1) x (by rw [List.get?_cons_succ]; exact hj) hxv
            exact absurd hcon (Nat.succ_ne_zero j)
        unfold staleHover
        rw [hnh]
        simp
      rw [ht, ha, hstale]
      rfl
    | succ k =>
      rw [List.get?_cons_succ] at hget
      have hna : staleHover a = false := by
        cases hav : a.hovered
        · unfold staleHover
          rw [hav]
          simp
        · have hcon := huniq 0 a rfl hav
          exact absurd hcon.symm (Nat.succ_ne_zero k)
      have huniqt : ∀ j m, t.get? j = some m → m.hovered = true → j = k := by
        intro j m hjm hmh
        have := huniq (j + 1) m (by rw [List.get?_cons_succ]; exact hjm) hmh
        omega
      rw [ih hget huniqt, hna]
      rfl

/-- Claim C2: a node in the Hovered state whose effective visibility is
false or whose clickable flag is false transitions to Idle on the frame
tick, with no pointer event; and when it was the only hovered node with
the counter at one, the tick leaves the counter at zero and the cursor at
the default. Either disqualifying condition alone suffices. -/
theorem hover_cleared_on_tick (s : IState) (i : Nat) (n : SceneNode)
    (hget : s.nodes.get? i = some n) (hh : n.hovered = true)
    (hcond : n.visible = false ∨ n.clickable = false) :
    (tick s).nodes.get? i = some { n with hovered := false } ∧
    ((∀ j m, s.nodes.get? j = some m → m.hovered = true → j = i) →
      s.ctr = ⟨1, CursorMode.pointer⟩ →
      (tick s).ctr.count = 0 ∧ (tick s).ctr.cursor = CursorMode.default) := by
  have hstale : staleHover n = true := by
    unfold staleHover
    rw [hh]
    rcases hcond with hv | hc
    · rw [hv]
      simp
    · rw [hc]
      simp
  constructor
  · show ((tickAux s.nodes s.ctr).1).get? i = _
    rw [tickAux_nodes, List.get?_map, hget]
    show some (tickNode n) = _
    unfold tickNode
    rw [if_pos hstale]
  · intro huniq hctr
    have hcount : s.nodes.countP staleHover = 1 :=
      countP_stale_unique hget hstale huniq
    have hc2 : (tick s).ctr = releaseHover^[1] s.ctr := by
      show (tickAux s.nodes s.ctr).2 = _
      rw [tickAux_ctr, hcount]
    rw [hc2, hctr]
    exact ⟨by decide, by decide⟩

/-- Witness for claim C2: one hovered clickable node becomes invisible;
the tick clears its hover, zeroes the count and resets the cursor. -/
theorem hover_cleared_on_tick_witness :
    (tick ⟨[⟨false, true, true⟩], ⟨1, CursorMode.pointer⟩⟩).nodes.get? 0 =
      some ⟨false, true, false⟩ ∧
    (tick ⟨[⟨false, true, true⟩], ⟨1, CursorMode.pointer⟩⟩).ctr.count = 0 ∧
    (tick ⟨[⟨false, true, true⟩], ⟨1, CursorMode.pointer⟩⟩).ctr.cursor =
      CursorMode.default := by
  have h := hover_cleared_on_tick ⟨[⟨false, true, true⟩], ⟨1, CursorMode.pointer⟩⟩ 0
    ⟨false, true, true⟩ rfl rfl (Or.inl rfl)
  have h2 := h.2
    (fun j m hjm hmh => by
      cases j with
      | zero => rfl
      | succ j2 => exact Option.noConfusion hjm)
    rfl
  exact ⟨h.1, h2.1, h2.2⟩

/-- Modelled from the spec and the fixed `ViserImage` effect quoted in
`fix_report.md` (the `ThreeAssets.tsx` source is not among the sampled
files): the state of one async texture slot: the currently installed
texture and the log of disposed texture identities. -/
structure SlotState where
  textureRef : Option Nat
  disposeLog : List Nat
deriving DecidableEq

/-- Modelled from the spec: one load completion carries the texture
identity it produced and the cancelled flag of its issuing effect (set on
supersession or owner teardown). A cancelled completion disposes the
texture it just produced and must not install it; a still-current
completion disposes the previously installed texture, if any, and
installs its own. -/
def completeLoad (s : SlotState) (c : Nat × Bool) : SlotState :=
  if c.2 then
    ⟨s.textureRef, s.disposeLog ++ [c.1]⟩
  else
    match s.textureRef with
    | some old => ⟨some c.1, s.disposeLog ++ [old]⟩
    | none => ⟨some c.1, s.disposeLog⟩

/-- Fire a list of completions against a slot, in order. -/
def runCompletions (cs : List (Nat × Bool)) (s : SlotState) : SlotState :=
  cs.foldl completeLoad s

/-- K successive loads issued for one slot: each of the first K-1 was
superseded by the next (its cancelled flag is set); only the last is
still current when the completions fire. -/
def issuedLoads (K : Nat) : List (Nat × Bool) :=
  ((List.range (K - 1)).map (fun i => (i, true))) ++ [(K - 1, false)]

theorem runCompletions_cancelled (cs : List (Nat × Bool)) (s : SlotState)
    (h : ∀ c ∈ cs, c.2 = true) :
    runCompletions cs s = ⟨s.textureRef, s.disposeLog ++ cs.map Prod.fst⟩ := by
  induction cs generalizing s with
  | nil => simp [runCompletions]
  | cons c t ih =>
    have hc : c.2 = true := h c (List.mem_cons_self c t)
    have hstep : completeLoad s c = ⟨s.textureRef, s.disposeLog ++ [c.1]⟩ := by
      unfold completeLoad
      rw [if_pos hc]
    show runCompletions t (completeLoad s c) = _
    rw [hstep, ih _ (fun x hx => h x (List.mem_cons_of_mem c hx))]
    simp

theorem perm_singleton_split {cs stale : List (Nat × Bool)} {fresh : Nat × Bool}
    (hperm : cs.Perm (stale ++ [fresh])) :
    ∃ l1 l2, cs = l1 ++ fresh :: l2 ∧ (l1 ++ l2).Perm stale := by
  have hmem : fresh ∈ cs := hperm.mem_iff.mpr (by simp)
  obtain ⟨l1, l2, hsplit⟩ := List.append_of_mem hmem
  refine ⟨l1, l2, hsplit, ?_⟩
  have h1 : (l1 ++ fresh :: l2).Perm (fresh :: (l1 ++ l2)) :=
    List.perm_middle
  have h2 : (stale ++ [fresh]).Perm (fresh :: stale) :=
    List.perm_append_singleton fresh stale
  have h3 : (fresh :: (l1 ++ l2)).Perm (fresh :: stale) :=
    (h1.symm.trans (hsplit ▸ hperm)).trans h2
  exact h3.cons_inv

/-- Claim C3: for K texture loads issued against one slot, whatever order
the completions fire in, a superseded completion never installs and
immediately disposes its own texture; and after all completions exactly
one texture (the last-issued one) is installed, the other K-1 were each
disposed exactly once. -/
theorem texture_churn (K : Nat) (hK : 1 ≤ K) (cs : List (Nat × Bool))
    (hperm : cs.Perm (issuedLoads K)) :
    (∀ s i, completeLoad s (i, true) = ⟨s.textureRef, s.disposeLog ++ [i]⟩) ∧
    (runCompletions cs ⟨none, []⟩).textureRef = some (K - 1) ∧
    (runCompletions cs ⟨none, []⟩).disposeLog.length = K - 1 ∧
    (∀ i, i ∈ (runCompletions cs ⟨none, []⟩).disposeLog ↔ i < K - 1) ∧
    (runCompletions cs ⟨none, []⟩).disposeLog.Nodup := by
  have hstalestep : ∀ s i, completeLoad s (i, true) =
      ⟨s.textureRef, s.disposeLog ++ [i]⟩ := by
    intro s i
    unfold completeLoad
    rw [if_pos rfl]
  obtain ⟨l1, l2, hsplit, hrest⟩ := perm_singleton_split hperm
  have hl1 : ∀ c ∈ l1, c.2 = true := by
    intro c hc
    have hmem : c ∈ (List.range (K - 1)).map (fun i => (i, true)) :=
      hrest.subset (List.mem_append.mpr (Or.inl hc))
    obtain ⟨i, _, hci⟩ := List.mem_map.mp hmem
    rw [← hci]
  have hl2 : ∀ c ∈ l2, c.2 = true := by
    intro c hc
    have hmem : c ∈ (List.range (K - 1)).map (fun i => (i, true)) :=
      hrest.subset (List.mem_append.mpr (Or.inr hc))
    obtain ⟨i, _, hci⟩ := List.mem_map.mp hmem
    rw [← hci]
  have hrun : runCompletions cs ⟨none, []⟩ =
      ⟨some (K - 1), l1.map Prod.fst ++ l2.map Prod.fst⟩ := by
    rw [hsplit]
    show (runCompletions (l1 ++ (K - 1, false) :: l2) ⟨none, []⟩) = _
    unfold runCompletions
    rw [List.foldl_append]
    have h1 : l1.foldl completeLoad ⟨none, []⟩ = ⟨none, l1.map Prod.fst⟩ :=
      runCompletions_cancelled l1 ⟨none, []⟩ hl1
    rw [h1]
    show l2.foldl completeLoad (completeLoad ⟨none, l1.map Prod.fst⟩ (K - 1, false)) = _
    have h2 : completeLoad ⟨none, l1.map Prod.fst⟩ (K - 1, false) =
        ⟨some (K - 1), l1.map Prod.fst⟩ := rfl
    rw [h2]
    have h3 := runCompletions_cancelled l2 ⟨some (K - 1), l1.map Prod.fst⟩ hl2
    exact h3
  have hlogperm : (l1.map Prod.fst ++ l2.map Prod.fst).Perm (List.range (K - 1)) := by
    have hmap : ((l1 ++ l2).map Prod.fst).Perm
        (((List.range (K - 1)).map (fun i => (i, true))).map Prod.fst) :=
      hrest.map Prod.fst
    rw [List.map_append] at hmap
    simpa [Function.comp_def] using hmap
  rw [hrun]
  refine ⟨hstalestep, rfl, ?_, ?_, ?_⟩
  · show (l1.map Prod.fst ++ l2.map Prod.fst).length = K - 1
    rw [hlogperm.length_eq, List.length_range]
  · intro i
    show i ∈ l1.map Prod.fst ++ l2.map Prod.fst ↔ i < K - 1
    rw [hlogperm.mem_iff, List.mem_range]
  · show (l1.map Prod.fst ++ l2.map Prod.fst).Nodup
    exact hlogperm.nodup_iff.mpr (List.nodup_range (K - 1))

/-- Witness for claim C3: three loads, completions firing out of order
(second superseded load, then the current one, then the first): the final
slot holds texture 2 and exactly the two superseded textures 0 and 1 were
disposed. -/
theorem texture_churn_witness :
    (runCompletions [(1, true), (2, false), (0, true)] ⟨none, []⟩).textureRef =
      some 2 ∧
    (runCompletions [(1, true), (2, false), (0, true)] ⟨none, []⟩).disposeLog.length
      = 2 :=
  ⟨(texture_churn 3 (by decide) [(1, true), (2, false), (0, true)] (by decide)).2.1,
    (texture_churn 3 (by decide) [(1, true), (2, false), (0, true)] (by decide)).2.2.1⟩

/-- Fog configuration (`FogMessage` in `utils/normalizeScale.ts`). -/
structure FogMessage where
  near : ℚ
  far : ℚ
  color : RGB
  enabled : Bool
deriving DecidableEq

/-- Environment map configuration (`EnvironmentMapMessage`). -/
structure EnvironmentMapMessage where
  hdri : String
  background : Bool
  background_blurriness : ℚ
  background_intensity : ℚ
  background_wxyz : V3 × ℚ
  environment_intensity : ℚ
  environment_wxyz : V3 × ℚ
deriving DecidableEq

/-- Per-viewer environment state (`EnvironmentState` in
`utils/normalizeScale.ts`). -/
structure EnvironmentState where
  enableDefaultLights : Bool
  enableDefaultLightsShadows : Bool
  environmentMap : EnvironmentMapMessage
  fog : FogMessage
deriving DecidableEq

/-- The initial store contents passed to `create` inside
`useEnvironmentState` (`utils/normalizeScale.ts` lines 22 to 42). -/
def defaultEnvironmentState : EnvironmentState :=
  ⟨true, true,
    ⟨"city", false, 0, 1, (⟨1, 0, 0⟩, 0), 1, (⟨1, 0, 0⟩, 0)⟩,
    ⟨10, 50, ⟨255, 255, 255⟩, false⟩⟩

/-- Embedding of `useEnvironmentState`: the hook keeps one store per
viewer instance in a `React.useState` cell: on the first render of an
instance a fresh store is appended to the process list of stores and its
index is retained; every re-render returns the retained index with the
store list untouched. -/
def useEnvironmentState (cell : Option Nat) (stores : List EnvironmentState) :
    Nat × List EnvironmentState :=
  match cell with
  | some i => (i, stores)
  | none => (stores.length, stores ++ [defaultEnvironmentState])

/-- Modelled from the spec: the single fog mutation entry point: the
zustand setState merge replaces the fog field and touches nothing else
(the store declares no validation). -/
def setFog (s : EnvironmentState) (f : FogMessage) : EnvironmentState :=
  { s with fog := f }

/-- Fog mutation applied to the store at one index of the process list,
other stores untouched. -/
def setFogAt (stores : List EnvironmentState) (i : Nat) (f : FogMessage) :
    List EnvironmentState :=
  match stores.get? i with
  | some s => stores.set i (setFog s f)
  | none => stores

/-- Claim C8: every first call of `useEnvironmentState` appends a fresh
independent store and returns a previously unused index; re-renders of
the same instance return the same index without touching the list; and
mutating the fog of one store leaves every store at a different index
entirely unchanged: there is no shared singleton. -/
theorem environment_store_isolation (stores : List EnvironmentState) :
    (∀ i, useEnvironmentState (some i) stores = (i, stores)) ∧
    ((useEnvironmentState none stores).2.get? (useEnvironmentState none stores).1 =
      some defaultEnvironmentState) ∧
    ((useEnvironmentState none ((useEnvironmentState none stores).2)).1 ≠
      (useEnvironmentState none stores).1) ∧
    (∀ k l f, k ≠ l → (setFogAt stores k f).get? l = stores.get? l) := by
  refine ⟨fun i => rfl, ?_, ?_, ?_⟩
  · show (stores ++ [defaultEnvironmentState]).get? stores.length =
      some defaultEnvironmentState
    rw [List.get?_concat_length]
  · show (stores ++ [defaultEnvironmentState]).length ≠ stores.length
    rw [List.length_append]
    simp
  · intro k l f hkl
    unfold setFogAt
    cases hk : stores.get? k with
    | none => rfl
    | some s =>
      show (stores.set k (setFog s f)).get? l = stores.get? l
      rw [List.get?_set_ne]
      exact hkl

/-- Witness for claim C8: with two fresh stores, mutating fog at index 0
leaves the store at index 1 unchanged. -/
theorem environment_store_isolation_witness :
    (setFogAt [defaultEnvironmentState, defaultEnvironmentState] 0
        ⟨50, 10, ⟨0, 0, 0⟩, true⟩).get? 1 =
      ([defaultEnvironmentState, defaultEnvironmentState] :
        List EnvironmentState).get? 1 :=
  (environment_store_isolation [defaultEnvironmentState, defaultEnvironmentState]).2.2.2
    0 1 ⟨50, 10, ⟨0, 0, 0⟩, true⟩ (by decide)

/-- Claim C9: the store records any fog configuration exactly as given,
including degenerate pairs with `near >= far`: nothing is validated,
reordered or rejected, and every other field of the store is untouched. -/
theorem fog_no_validation (s : EnvironmentState) (near far : ℚ) (color : RGB)
    (enabled : Bool) :
    (setFog s ⟨near, far, color, enabled⟩).fog = ⟨near, far, color, enabled⟩ ∧
    (setFog s ⟨near, far, color, enabled⟩).fog.near = near ∧
    (setFog s ⟨near, far, color, enabled⟩).fog.far = far ∧
    (setFog s ⟨near, far, color, enabled⟩).enableDefaultLights =
      s.enableDefaultLights ∧
    (setFog s ⟨near, far, color, enabled⟩).enableDefaultLightsShadows =
      s.enableDefaultLightsShadows ∧
    (setFog s ⟨near, far, color, enabled⟩).environmentMap = s.environmentMap :=
  ⟨rfl, rfl, rfl, rfl, rfl, rfl⟩

end Viser
